import Mathlib

/-!
Shallow embedding of the pdf-llm-council backend:
`src/backend/pdf_processor.py` (base64 attachment encoding and the
single-document message composer) and `src/backend/openrouter.py`
(single-model invocation with multimodal message processing, and the
parallel fan-out dispatcher).

Bytes are modelled as `Nat` values below 256, Python strings as Lean
`String`, JSON-ish optional dict keys as `Option`, and the transport
(httpx) as an abstract outcome datatype.
-/

/-! ## Base64 (model of Python `base64.b64encode` / `b64decode`, RFC 4648) -/

/-- The standard base64 alphabet, as used by `base64.b64encode`. -/
def b64Alphabet : List Char :=
  ['A','B','C','D','E','F','G','H','I','J','K','L','M',
   'N','O','P','Q','R','S','T','U','V','W','X','Y','Z',
   'a','b','c','d','e','f','g','h','i','j','k','l','m',
   'n','o','p','q','r','s','t','u','v','w','x','y','z',
   '0','1','2','3','4','5','6','7','8','9','+','/']

/-- Character for a 6-bit group. -/
def b64Char (n : Nat) : Char := b64Alphabet.getD n 'A'

/-- Index of a base64 character in the alphabet. -/
def b64Index (c : Char) : Nat := b64Alphabet.indexOf c

/-- Base64 encoding of a byte list, grouping bytes in threes and padding
with `=` exactly as `base64.b64encode` does. -/
def b64encode : List Nat → List Char
  | [] => []
  | [b0] => [b64Char (b0 / 4), b64Char (b0 % 4 * 16), '=', '=']
  | [b0, b1] => [b64Char (b0 / 4), b64Char (b0 % 4 * 16 + b1 / 16),
                 b64Char (b1 % 16 * 4), '=']
  | b0 :: b1 :: b2 :: rest =>
      b64Char (b0 / 4) :: b64Char (b0 % 4 * 16 + b1 / 16) ::
      b64Char (b1 % 16 * 4 + b2 / 64) :: b64Char (b2 % 64) :: b64encode rest

/-- Base64 decoding of a character list (model of `base64.b64decode` on
well-formed input; ill-formed input decodes to `[]`). -/
def b64decode : List Char → List Nat
  | c0 :: c1 :: c2 :: c3 :: rest =>
      if c2 = '=' then [b64Index c0 * 4 + b64Index c1 / 16]
      else if c3 = '=' then
        [b64Index c0 * 4 + b64Index c1 / 16,
         b64Index c1 % 16 * 16 + b64Index c2 / 4]
      else
        (b64Index c0 * 4 + b64Index c1 / 16) ::
        (b64Index c1 % 16 * 16 + b64Index c2 / 4) ::
        (b64Index c2 % 4 * 64 + b64Index c3) :: b64decode rest
  | _ => []

/-! ## pdf_processor.py -/

/-- `encode_pdf_to_base64(pdf_bytes)`: base64-encode the document bytes and
decode the ASCII result to a string. -/
def encode_pdf_to_base64 (pdf_bytes : List Nat) : String :=
  String.mk (b64encode pdf_bytes)

/-- One element of a multimodal `content` array: either a text part
(wire shape: type "text" with field "text") or a media part (wire shape:
type "image_url" with an "image_url" object holding a data URI "url"). -/
inductive ContentPart where
  | text (t : String)
  | imageUrl (url : String)
deriving DecidableEq, Repr

/-- Whitespace in the sense of Python `str.strip`. -/
def pyIsSpace (c : Char) : Bool :=
  c = ' ' || c = '\t' || c = '\n' || c = '\r' || c.toNat = 11 || c.toNat = 12

/-- Python `s.strip()`: drop leading and trailing whitespace. -/
def pyStrip (s : String) : String :=
  String.mk (((s.data.dropWhile pyIsSpace).reverse.dropWhile pyIsSpace).reverse)

/-- A message whose content is already a content-part array, as produced by
`create_message_with_pdf`. -/
structure PdfMessage where
  role : String
  content : List ContentPart
deriving DecidableEq, Repr

/-- The default prompt substituted by `create_message_with_pdf` when the
user message is blank. -/
def defaultPdfPrompt : String := "Please analyze this PDF document."

/-- `create_message_with_pdf(user_message, pdf_bytes, filename)`: build the
one-element message list with a text part and a PDF data-URI part. The
`filename` argument is accepted but the body never reads it. -/
def create_message_with_pdf (user_message : String) (pdf_bytes : List Nat)
    (filename : String) : List PdfMessage :=
  let pdf_base64 := encode_pdf_to_base64 pdf_bytes
  let msg := if (pyStrip user_message).isEmpty then defaultPdfPrompt
             else user_message
  [{ role := "user",
     content := [ContentPart.text msg,
                 ContentPart.imageUrl
                   ("data:application/pdf;base64," ++ pdf_base64)] }]

/-! ## openrouter.py: message processing in `query_model` -/

/-- An attachment dict as read by `query_model`: the "type" (MIME type)
and "base64" keys may each be absent (`attachment.get` with a default). -/
structure Attachment where
  type? : Option String
  base64? : Option String
deriving DecidableEq, Repr

/-- An input message dict: "role", "content", and the optional
"attachments" key (`msg.get("attachments", [])`, so an absent key is the
empty list). -/
structure Msg where
  role : String
  content : String
  attachments : List Attachment
deriving DecidableEq, Repr

/-- The processed content field: a plain string, or a content-part array
on the multimodal path. -/
inductive MsgContent where
  | str (s : String)
  | parts (ps : List ContentPart)
deriving DecidableEq, Repr

/-- A processed message as placed into the transport payload. -/
structure ProcessedMsg where
  role : String
  content : MsgContent
deriving DecidableEq, Repr

/-- The content part built for one attachment: MIME type defaults to
"application/pdf", data defaults to "", packaged as an image_url data
URI. -/
def mediaPart (a : Attachment) : ContentPart :=
  ContentPart.imageUrl
    ("data:" ++ a.type?.getD "application/pdf" ++ ";base64," ++
      a.base64?.getD "")

/-- The per-message body of the processing loop of `query_model`: the
plain-text fast path when attachments is empty, otherwise a content-part
array built by successive appends. -/
def processMessage (msg : Msg) : ProcessedMsg :=
  if msg.attachments.isEmpty then
    { role := msg.role, content := MsgContent.str msg.content }
  else
    let parts0 : List ContentPart := []
    let parts1 := if msg.content = "" then parts0
                  else parts0 ++ [ContentPart.text msg.content]
    let parts2 := msg.attachments.foldl (fun acc a => acc ++ [mediaPart a]) parts1
    { role := msg.role, content := MsgContent.parts parts2 }

/-- The transport payload built by `query_model`. -/
structure Payload where
  model : String
  messages : List ProcessedMsg
deriving DecidableEq, Repr

/-- Payload construction from the raw messages. -/
def buildPayload (model : String) (messages : List Msg) : Payload :=
  { model := model, messages := messages.map processMessage }

/-! ## openrouter.py: response handling in `query_model` -/

/-- The "message" object of the first choice: "content" and
"reasoning_details" keys, each possibly absent (`message.get`). -/
structure RespMessage where
  content : Option String
  reasoning_details : Option String
deriving DecidableEq, Repr

/-- One element of the "choices" array; its "message" key may be absent
(indexing it then raises KeyError inside the try block). -/
structure Choice where
  message? : Option RespMessage
deriving DecidableEq, Repr

/-- A parsed response body; the "choices" key may be absent. -/
structure RespData where
  choices? : Option (List Choice)
deriving DecidableEq, Repr

/-- What the transport (httpx POST) produced: a raised transport error
(connection failure or timeout), or a response with a status code and a
body that either parses as JSON (`some`) or does not (`none`). -/
inductive TransportResult where
  | transportError
  | response (status : Nat) (body : Option RespData)
deriving DecidableEq, Repr

/-- The error conditions arising inside the try block of `query_model`. -/
inductive QueryError where
  | transport
  | httpStatus
  | malformedJson
  | missingMessage
deriving DecidableEq, Repr

/-- The successful return value of `query_model`: the first choice's
"content" and "reasoning_details". -/
structure QuerySuccess where
  content : Option String
  reasoning_details : Option String
deriving DecidableEq, Repr

/-- The body of the try block of `query_model`, with each raising error
condition made explicit: a raised transport error propagates; a non-2xx
status makes `raise_for_status` raise; an unparsable body makes
`response.json()` raise; an absent or empty "choices" list returns None
explicitly; an absent "message" key raises KeyError; otherwise the first
choice's message fields are returned. -/
def queryModelTry : TransportResult → Except QueryError (Option QuerySuccess)
  | TransportResult.transportError => Except.error QueryError.transport
  | TransportResult.response status body =>
    if status < 200 ∨ 300 ≤ status then Except.error QueryError.httpStatus
    else
      match body with
      | none => Except.error QueryError.malformedJson
      | some data =>
        match data.choices? with
        | none => Except.ok none
        | some [] => Except.ok none
        | some (c :: _) =>
          match c.message? with
          | none => Except.error QueryError.missingMessage
          | some m => Except.ok (some ⟨m.content, m.reasoning_details⟩)

/-- `query_model`'s result for a given transport outcome: the try body,
with the catch-all except clause converting every raised error to None. -/
def query_model (r : TransportResult) : Option QuerySuccess :=
  match queryModelTry r with
  | Except.error _ => none
  | Except.ok v => v

/-! ## openrouter.py: `query_models_parallel` -/

/-- Insertion into a Python dict modelled as an insertion-ordered
association list: an existing key has its value overwritten in place, a
new key is appended. -/
def pyDictInsert {α : Type} (d : List (String × α)) (k : String) (v : α) :
    List (String × α) :=
  if d.any (fun p => p.1 == k) then
    d.map (fun p => if p.1 == k then (k, v) else p)
  else d ++ [(k, v)]

/-- Lookup in the dict model. -/
def pyDictLookup {α : Type} (d : List (String × α)) (k : String) : Option α :=
  match d with
  | [] => none
  | p :: rest => if p.1 == k then some p.2 else pyDictLookup rest k

/-- `query_models_parallel(models, messages)`: one task per model is
created and gathered in order; `responses` is the list of per-task
outcomes (position i is the outcome of the task for `models[i]`); the
result is the dict comprehension over `zip(models, responses)`. -/
def query_models_parallel (models : List String)
    (responses : List (Option QuerySuccess)) :
    List (String × Option QuerySuccess) :=
  (models.zip responses).foldl (fun d mr => pyDictInsert d mr.1 mr.2) []

/-! ## Heap model of the message-processing loop

To state the frame property (the loop builds fresh objects and never
writes into the caller's message dicts), the loop is re-embedded with an
explicit store of Python objects addressed by `Nat`, with every object
creation and every mutation (`new_msg[...] = ...`, `.append(...)`) an
explicit store operation. -/

/-- A heap cell: an input message dict (only ever read), a freshly built
output message dict (content absent until assigned; a string, or a
reference to a parts list), a content-parts list, the processed-messages
list of message references, or an uninitialized cell. -/
inductive HVal where
  | msgIn (role : String) (content : String) (atts : List Attachment)
  | msgOut (role : String) (content : Option (String ⊕ Nat))
  | partsList (ps : List ContentPart)
  | outList (addrs : List Nat)
  | undef
deriving DecidableEq, Repr

/-- The store: memory contents and the next fresh address. -/
structure Store where
  mem : Nat → HVal
  next : Nat

/-- Allocate a fresh cell holding `v`, returning its address. -/
def Store.alloc (σ : Store) (v : HVal) : Store × Nat :=
  ({ mem := fun a => if a = σ.next then v else σ.mem a, next := σ.next + 1 },
   σ.next)

/-- Overwrite the cell at address `a` with `v`. -/
def Store.write (σ : Store) (a : Nat) (v : HVal) : Store :=
  { mem := fun b => if b = a then v else σ.mem b, next := σ.next }

/-- `content_parts.append(p)`: mutate the parts list at `aParts`. -/
def appendPart (σ : Store) (aParts : Nat) (p : ContentPart) : Store :=
  match σ.mem aParts with
  | HVal.partsList ps => σ.write aParts (HVal.partsList (ps ++ [p]))
  | _ => σ

/-- One iteration of the processing loop on the message dict at `ma`:
allocate `new_msg`, and on the multimodal path allocate `content_parts`
and append the text part and one media part per attachment, mutating only
the freshly allocated objects; returns the store and the address of
`new_msg`. -/
def processMsgHeap (σ : Store) (ma : Nat) : Store × Nat :=
  match σ.mem ma with
  | HVal.msgIn role content atts =>
    let p1 := σ.alloc (HVal.msgOut role none)
    let σ1 := p1.1
    let aNew := p1.2
    if atts.isEmpty then
      (σ1.write aNew (HVal.msgOut role (some (Sum.inl content))), aNew)
    else
      let p2 := σ1.alloc (HVal.partsList [])
      let σ2 := p2.1
      let aParts := p2.2
      let σ3 := if content = "" then σ2
                else appendPart σ2 aParts (ContentPart.text content)
      let σ4 := atts.foldl (fun s a => appendPart s aParts (mediaPart a)) σ3
      (σ4.write aNew (HVal.msgOut role (some (Sum.inr aParts))), aNew)
  | _ => (σ, ma)

/-- The whole loop of `query_model` over the input message addresses:
allocate `processed_messages`, process each message, and append the fresh
message's address; returns the store and the address of
`processed_messages`. -/
def processMessagesHeap (σ : Store) (addrs : List Nat) : Store × Nat :=
  let p0 := σ.alloc (HVal.outList [])
  let aOut := p0.2
  let σf := addrs.foldl (fun s ma =>
      let q := processMsgHeap s ma
      match q.1.mem aOut with
      | HVal.outList l => q.1.write aOut (HVal.outList (l ++ [q.2]))
      | _ => q.1) p0.1
  (σf, aOut)

/-- `σ'` preserves every cell of `σ` at addresses below `n`, and has not
lowered the allocation frontier below `n`. -/
def FrameAbove (σ σ' : Store) (n : Nat) : Prop :=
  n ≤ σ'.next ∧ ∀ b, b < n → σ'.mem b = σ.mem b

/-! # Theorems -/

/-! ## Base64 lemmas -/

theorem b64Index_b64Char : ∀ n, n < 64 → b64Index (b64Char n) = n := by decide

theorem b64Char_ne_pad : ∀ n, n < 64 → b64Char n ≠ '=' := by decide

/-- Decoding inverts encoding on byte lists. -/
theorem b64decode_b64encode :
    ∀ (l : List Nat), (∀ b ∈ l, b < 256) → b64decode (b64encode l) = l
  | [], _ => rfl
  | [b0], h => by
      have hb0 : b0 < 256 := h b0 (by simp)
      show b64decode [b64Char (b0 / 4), b64Char (b0 % 4 * 16), '=', '='] = [b0]
      rw [b64decode]
      rw [if_pos rfl]
      rw [b64Index_b64Char _ (by omega), b64Index_b64Char _ (by omega)]
      have : b0 / 4 * 4 + b0 % 4 * 16 / 16 = b0 := by omega
      rw [this]
  | [b0, b1], h => by
      have hb0 : b0 < 256 := h b0 (by simp)
      have hb1 : b1 < 256 := h b1 (by simp)
      show b64decode [b64Char (b0 / 4), b64Char (b0 % 4 * 16 + b1 / 16),
                      b64Char (b1 % 16 * 4), '='] = [b0, b1]
      rw [b64decode]
      rw [if_neg (b64Char_ne_pad _ (by omega)), if_pos rfl]
      rw [b64Index_b64Char _ (by omega), b64Index_b64Char _ (by omega),
          b64Index_b64Char _ (by omega)]
      have h0 : b0 / 4 * 4 + (b0 % 4 * 16 + b1 / 16) / 16 = b0 := by omega
      have h1 : (b0 % 4 * 16 + b1 / 16) % 16 * 16 + b1 % 16 * 4 / 4 = b1 := by
        omega
      rw [h0, h1]
  | b0 :: b1 :: b2 :: rest, h => by
      have hb0 : b0 < 256 := h b0 (by simp)
      have hb1 : b1 < 256 := h b1 (by simp)
      have hb2 : b2 < 256 := h b2 (by simp)
      have ih := b64decode_b64encode rest (fun b hb => h b (by simp [hb]))
      show b64decode (b64Char (b0 / 4) :: b64Char (b0 % 4 * 16 + b1 / 16) ::
            b64Char (b1 % 16 * 4 + b2 / 64) :: b64Char (b2 % 64) ::
            b64encode rest) = b0 :: b1 :: b2 :: rest
      rw [b64decode]
      rw [if_neg (b64Char_ne_pad _ (by omega)),
          if_neg (b64Char_ne_pad _ (by omega))]
      rw [b64Index_b64Char _ (by omega), b64Index_b64Char _ (by omega),
          b64Index_b64Char _ (by omega), b64Index_b64Char _ (by omega)]
      rw [ih]
      have h0 : b0 / 4 * 4 + (b0 % 4 * 16 + b1 / 16) / 16 = b0 := by omega
      have h1 : (b0 % 4 * 16 + b1 / 16) % 16 * 16 +
          (b1 % 16 * 4 + b2 / 64) / 4 = b1 := by omega
      have h2 : (b1 % 16 * 4 + b2 / 64) % 4 * 64 + b2 % 64 = b2 := by omega
      rw [h0, h1, h2]

theorem foldl_concat_eq_append {α β : Type} (f : α → β) (l : List α) :
    ∀ acc : List β, l.foldl (fun acc x => acc ++ [f x]) acc = acc ++ l.map f := by
  induction l with
  | nil => intro acc; simp
  | cons x xs ih => intro acc; simp [List.foldl_cons, ih]

/-! ## Claim theorems for pdf_processor.py -/

/-- C6: for every non-empty byte sequence, base64-decoding the result of
`encode_pdf_to_base64` reproduces the original bytes exactly. -/
theorem encode_pdf_to_base64_roundtrip (l : List Nat) (hne : l ≠ [])
    (hb : ∀ b ∈ l, b < 256) :
    b64decode (encode_pdf_to_base64 l).data = l :=
  b64decode_b64encode l hb

theorem encode_pdf_to_base64_roundtrip_witness :
    [1, 2, 3, 255] ≠ ([] : List Nat) ∧
    b64decode (encode_pdf_to_base64 [1, 2, 3, 255]).data = [1, 2, 3, 255] :=
  ⟨by decide, encode_pdf_to_base64_roundtrip [1, 2, 3, 255] (by decide) (by decide)⟩

/-- C3 (counterexample): on a whitespace-only user message,
`create_message_with_pdf` does not produce the text part
"Please analyze this document." claimed by the spec. -/
theorem create_message_with_pdf_default_counterexample :
    ((create_message_with_pdf " " [] "doc.pdf").headD ⟨"", []⟩).content.head? ≠
      some (ContentPart.text "Please analyze this document.") := by decide

/-- C3 (amended): on a user message that is blank after stripping,
`create_message_with_pdf` substitutes the fixed default prompt
"Please analyze this PDF document." as the text part; on a non-blank user
message the text is preserved verbatim. -/
theorem create_message_with_pdf_text_part (u f : String) (b : List Nat) :
    ((pyStrip u).isEmpty = true →
      ((create_message_with_pdf u b f).headD ⟨"", []⟩).content.head? =
        some (ContentPart.text defaultPdfPrompt)) ∧
    ((pyStrip u).isEmpty = false →
      ((create_message_with_pdf u b f).headD ⟨"", []⟩).content.head? =
        some (ContentPart.text u)) := by
  constructor <;> intro h <;> simp [create_message_with_pdf, h]

theorem create_message_with_pdf_text_part_witness :
    ((create_message_with_pdf "  " [] "a.pdf").headD ⟨"", []⟩).content.head? =
      some (ContentPart.text defaultPdfPrompt) ∧
    ((create_message_with_pdf "hi" [] "a.pdf").headD ⟨"", []⟩).content.head? =
      some (ContentPart.text "hi") :=
  ⟨(create_message_with_pdf_text_part "  " "a.pdf" []).1 (by decide),
   (create_message_with_pdf_text_part "hi" "a.pdf" []).2 (by decide)⟩

/-- C8: the produced message list is independent of the filename argument:
`create_message_with_pdf` accepts it but never embeds it. -/
theorem create_message_with_pdf_filename_independent (u : String)
    (b : List Nat) (f1 f2 : String) :
    create_message_with_pdf u b f1 = create_message_with_pdf u b f2 := rfl

/-! ## Claim theorems for query_model message processing -/

/-- C5: on a message with an empty attachment list, `processMessage`
yields content equal to the raw text value itself, not wrapped into a
content-part array. -/
theorem processMessage_no_attachments (r c : String) :
    processMessage ⟨r, c, []⟩ = ⟨r, MsgContent.str c⟩ := rfl

/-- C4: on a message with a non-empty attachment list, `processMessage`
produces a content-part array whose first element is a text part exactly
when the text is non-empty, followed by one media part per attachment in
input order, each an image_url data URI with MIME type defaulting to
"application/pdf" and data defaulting to "". -/
theorem processMessage_multimodal (r c : String) (a : Attachment)
    (rest : List Attachment) :
    processMessage ⟨r, c, a :: rest⟩ =
      ⟨r, MsgContent.parts
        ((if c = "" then [] else [ContentPart.text c]) ++
         (a :: rest).map (fun att => ContentPart.imageUrl
            ("data:" ++ att.type?.getD "application/pdf" ++ ";base64," ++
              att.base64?.getD "")))⟩ := by
  show ProcessedMsg.mk r (MsgContent.parts _) = _
  simp only [processMessage, List.isEmpty_cons, Bool.false_eq_true, if_false,
    foldl_concat_eq_append, mediaPart]
  split <;> simp [mediaPart]

/-! ## Claim theorems for query_model response handling -/

/-- C2: every error condition raised inside the try block of `query_model`
(transport error, non-2xx status, malformed JSON body, missing "message"
field) is caught at the boundary and returned as the Failure outcome
None; nothing propagates to the caller. -/
theorem query_model_catches_all_errors (r : TransportResult) (e : QueryError)
    (h : queryModelTry r = Except.error e) : query_model r = none := by
  simp [query_model, h]

theorem query_model_catches_all_errors_witness :
    queryModelTry TransportResult.transportError =
      Except.error QueryError.transport ∧
    query_model TransportResult.transportError = none :=
  ⟨rfl, query_model_catches_all_errors TransportResult.transportError
          QueryError.transport rfl⟩

/-- C7: a parsed response whose "choices" field is absent or an empty
array yields Failure (None), while a response whose first choice's
message has content equal to the empty string yields Success carrying
that empty string. -/
theorem query_model_choices_and_empty_content (rd : Option String)
    (rest : List Choice) :
    query_model (TransportResult.response 200 (some ⟨none⟩)) = none ∧
    query_model (TransportResult.response 200 (some ⟨some []⟩)) = none ∧
    query_model (TransportResult.response 200
        (some ⟨some (⟨some ⟨some "", rd⟩⟩ :: rest)⟩)) =
      some ⟨some "", rd⟩ := by
  refine ⟨rfl, rfl, ?_⟩
  simp [query_model, queryModelTry]

/-! ## Claim theorem for query_models_parallel (dict model lemmas) -/

theorem pyDictInsert_keys {α : Type} (d : List (String × α)) (k : String) (v : α) :
    (pyDictInsert d k v).map Prod.fst =
      if d.any (fun p => p.1 == k) then d.map Prod.fst
      else d.map Prod.fst ++ [k] := by
  unfold pyDictInsert
  split
  · rw [List.map_map]
    apply List.map_congr_left
    intro p _
    by_cases hpk : p.1 == k
    · simp only [Function.comp, hpk, if_true]
      exact (beq_iff_eq.mp hpk).symm
    · simp [Function.comp, hpk]
  · simp

theorem pyDictInsert_keys_nodup {α : Type} (d : List (String × α)) (k : String)
    (v : α) (h : (d.map Prod.fst).Nodup) :
    ((pyDictInsert d k v).map Prod.fst).Nodup := by
  rw [pyDictInsert_keys]
  split
  · exact h
  · rename_i hany
    have hk : k ∉ d.map Prod.fst := by
      intro hmem
      apply hany
      rw [List.any_eq_true]
      obtain ⟨p, hp, hpk⟩ := List.mem_map.mp hmem
      exact ⟨p, hp, by simp [hpk]⟩
    simp [List.nodup_append, h, hk]

theorem pyDictInsert_keys_mem {α : Type} (d : List (String × α)) (k k' : String)
    (v : α) :
    k' ∈ (pyDictInsert d k v).map Prod.fst ↔ k' ∈ d.map Prod.fst ∨ k' = k := by
  rw [pyDictInsert_keys]
  split
  · rename_i hany
    constructor
    · exact Or.inl
    · rintro (h | rfl)
      · exact h
      · rw [List.any_eq_true] at hany
        obtain ⟨p, hp, hpk⟩ := hany
        exact List.mem_map.mpr ⟨p, hp, beq_iff_eq.mp hpk⟩
  · simp

theorem dictBuild_keys (pairs : List (String × Option QuerySuccess)) :
    ∀ d : List (String × Option QuerySuccess), (d.map Prod.fst).Nodup →
      (((pairs.foldl (fun d mr => pyDictInsert d mr.1 mr.2) d).map Prod.fst).Nodup ∧
       ∀ m, m ∈ (pairs.foldl (fun d mr => pyDictInsert d mr.1 mr.2) d).map Prod.fst ↔
         m ∈ d.map Prod.fst ∨ m ∈ pairs.map Prod.fst) := by
  induction pairs with
  | nil => intro d hd; simpa using hd
  | cons p rest ih =>
    intro d hd
    simp only [List.foldl_cons]
    obtain ⟨ih1, ih2⟩ := ih (pyDictInsert d p.1 p.2)
      (pyDictInsert_keys_nodup d p.1 p.2 hd)
    refine ⟨ih1, fun m => ?_⟩
    rw [ih2 m, pyDictInsert_keys_mem]
    simp only [List.map_cons, List.mem_cons]
    tauto

theorem dictBuild_eq_of_nodup :
    ∀ (pairs : List (String × Option QuerySuccess))
      (d : List (String × Option QuerySuccess)),
      ((pairs.map Prod.fst).Nodup) →
      (∀ m ∈ pairs.map Prod.fst, m ∉ d.map Prod.fst) →
      pairs.foldl (fun d mr => pyDictInsert d mr.1 mr.2) d = d ++ pairs
  | [], d, _, _ => by simp
  | p :: rest, d, hnd, hdisj => by
    simp only [List.foldl_cons]
    have hp : p.1 ∉ d.map Prod.fst := hdisj p.1 (by simp)
    have hnotany : ¬(d.any (fun q => q.1 == p.1) = true) := by
      intro hany
      rw [List.any_eq_true] at hany
      obtain ⟨q, hq, hqk⟩ := hany
      exact hp (List.mem_map.mpr ⟨q, hq, beq_iff_eq.mp hqk⟩)
    have hins : pyDictInsert d p.1 p.2 = d ++ [p] := by
      unfold pyDictInsert
      rw [if_neg hnotany]
    rw [hins]
    rw [dictBuild_eq_of_nodup rest (d ++ [p])
      (by simp only [List.map_cons] at hnd; exact hnd.of_cons)
      (by
        intro m hm
        simp only [List.map_append, List.map_cons, List.map_nil, List.mem_append,
          List.mem_singleton]
        rintro (hmd | hmp)
        · exact hdisj m (by simp [hm]) hmd
        · simp only [List.map_cons] at hnd
          rw [List.nodup_cons] at hnd
          exact hnd.1 (hmp ▸ hm))]
    simp

theorem pyDictLookup_of_nodup {α : Type} :
    ∀ (l : List (String × α)), ((l.map Prod.fst).Nodup) →
      ∀ i (hi : i < l.length),
        pyDictLookup l (l.get ⟨i, hi⟩).1 = some (l.get ⟨i, hi⟩).2
  | [], _, i, hi => by simp at hi
  | p :: rest, hnd, 0, hi => by
      simp [pyDictLookup]
  | p :: rest, hnd, i + 1, hi => by
      simp only [List.get_cons_succ]
      rw [pyDictLookup]
      rw [if_neg]
      · exact pyDictLookup_of_nodup rest
          (by simp only [List.map_cons] at hnd; exact hnd.of_cons)
          i (by simpa using hi)
      · simp only [List.map_cons, List.nodup_cons] at hnd
        intro hbeq
        apply hnd.1
        have : p.1 = (rest.get ⟨i, by simpa using hi⟩).1 := beq_iff_eq.mp hbeq
        rw [this]
        exact List.mem_map_of_mem Prod.fst (List.get_mem rest i (by simpa using hi))

/-- C1: the fan-out result contains every requested target identifier as
a key exactly once (keys are nodup and key membership coincides with the
requested list), and for pairwise-distinct targets each key is mapped to
its own invocation's outcome, whatever the other outcomes are — one
target's failure cannot remove or alter another target's entry. -/
theorem query_models_parallel_complete (models : List String)
    (responses : List (Option QuerySuccess))
    (h : models.length = responses.length) :
    ((query_models_parallel models responses).map Prod.fst).Nodup ∧
    (∀ m, m ∈ (query_models_parallel models responses).map Prod.fst ↔
      m ∈ models) ∧
    (models.Nodup → ∀ i (hi : i < models.length),
      pyDictLookup (query_models_parallel models responses)
        (models.get ⟨i, hi⟩) = some (responses.getD i none)) := by
  unfold query_models_parallel
  have hkeys : (models.zip responses).map Prod.fst = models :=
    List.map_fst_zip models responses (by omega)
  obtain ⟨h1, h2⟩ := dictBuild_keys (models.zip responses) [] (by simp)
  refine ⟨h1, fun m => ?_, fun hnd i hi => ?_⟩
  · rw [h2 m, hkeys]; simp
  · have hznd : ((models.zip responses).map Prod.fst).Nodup := by
      rw [hkeys]; exact hnd
    have hbuild : (models.zip responses).foldl
        (fun d mr => pyDictInsert d mr.1 mr.2) [] = models.zip responses := by
      rw [dictBuild_eq_of_nodup (models.zip responses) [] hznd (by simp)]
      simp
    have hzlen : i < (models.zip responses).length := by
      rw [List.length_zip]; omega
    have hget : (models.zip responses).get ⟨i, hzlen⟩ =
        (models.get ⟨i, hi⟩, responses.get ⟨i, by omega⟩) := by
      apply List.get_zip
    rw [hbuild]
    have := pyDictLookup_of_nodup (models.zip responses) hznd i hzlen
    rw [hget] at this
    simp only at this
    rw [this]
    congr 1
    rw [List.getD_eq_get]

theorem query_models_parallel_complete_witness :
    pyDictLookup (query_models_parallel ["a", "b"]
      [none, some ⟨some "ok", none⟩]) "b" = some (some ⟨some "ok", none⟩) := by
  have h := (query_models_parallel_complete ["a", "b"]
      [none, some ⟨some "ok", none⟩] rfl).2.2 (by decide) 1 (by decide)
  simpa using h

/-! ## Frame lemmas for the heap model -/

theorem frameAbove_refl (σ : Store) (n : Nat) (h : n ≤ σ.next) :
    FrameAbove σ σ n :=
  ⟨h, fun _ _ => rfl⟩

theorem frameAbove_trans {σ1 σ2 σ3 : Store} {n : Nat}
    (h12 : FrameAbove σ1 σ2 n) (h23 : FrameAbove σ2 σ3 n) :
    FrameAbove σ1 σ3 n :=
  ⟨h23.1, fun b hb => (h23.2 b hb).trans (h12.2 b hb)⟩

theorem frameAbove_alloc {σ0 σ : Store} {n : Nat} (h : FrameAbove σ0 σ n)
    (v : HVal) : FrameAbove σ0 (σ.alloc v).1 n := by
  refine ⟨?_, fun b hb => ?_⟩
  · have := h.1
    simp only [Store.alloc]
    omega
  · simp only [Store.alloc]
    rw [if_neg (by have := h.1; omega)]
    exact h.2 b hb

theorem frameAbove_write {σ0 σ : Store} {n : Nat} (h : FrameAbove σ0 σ n)
    (a : Nat) (v : HVal) (ha : n ≤ a) : FrameAbove σ0 (σ.write a v) n := by
  refine ⟨by simpa [Store.write] using h.1, fun b hb => ?_⟩
  simp only [Store.write]
  rw [if_neg (by omega)]
  exact h.2 b hb

theorem frameAbove_appendPart {σ0 σ : Store} {n : Nat} (h : FrameAbove σ0 σ n)
    (aP : Nat) (p : ContentPart) (ha : n ≤ aP) :
    FrameAbove σ0 (appendPart σ aP p) n := by
  unfold appendPart
  split
  · exact frameAbove_write h aP _ ha
  · exact h

theorem frameAbove_foldAppend {n : Nat} (aP : Nat) (ha : n ≤ aP)
    (atts : List Attachment) :
    ∀ {σ0 σ : Store}, FrameAbove σ0 σ n →
      FrameAbove σ0
        (atts.foldl (fun s a => appendPart s aP (mediaPart a)) σ) n := by
  induction atts with
  | nil => intro σ0 σ h; exact h
  | cons a rest ih =>
    intro σ0 σ h
    exact ih (frameAbove_appendPart h aP (mediaPart a) ha)

theorem Store.alloc_snd (σ : Store) (v : HVal) : (σ.alloc v).2 = σ.next := rfl

theorem Store.alloc_fst_next (σ : Store) (v : HVal) :
    (σ.alloc v).1.next = σ.next + 1 := rfl

theorem processMsgHeap_frameAbove (σ : Store) (ma : Nat) {n : Nat}
    (h : n ≤ σ.next) : FrameAbove σ (processMsgHeap σ ma).1 n := by
  unfold processMsgHeap
  split
  · rename_i role content atts heq
    dsimp only
    have h1 : FrameAbove σ (σ.alloc (HVal.msgOut role none)).1 n :=
      frameAbove_alloc (frameAbove_refl σ n h) _
    by_cases hatts : atts.isEmpty = true
    · rw [if_pos hatts]
      dsimp only
      exact frameAbove_write h1 _ _ (by rw [Store.alloc_snd]; exact h)
    · rw [if_neg hatts]
      dsimp only
      have h2 : FrameAbove σ
          ((σ.alloc (HVal.msgOut role none)).1.alloc (HVal.partsList [])).1 n :=
        frameAbove_alloc h1 _
      have haP : n ≤
          ((σ.alloc (HVal.msgOut role none)).1.alloc (HVal.partsList [])).2 := by
        rw [Store.alloc_snd, Store.alloc_fst_next]
        omega
      have h3 : FrameAbove σ
          (if content = "" then
            ((σ.alloc (HVal.msgOut role none)).1.alloc (HVal.partsList [])).1
          else appendPart
            ((σ.alloc (HVal.msgOut role none)).1.alloc (HVal.partsList [])).1
            ((σ.alloc (HVal.msgOut role none)).1.alloc (HVal.partsList [])).2
            (ContentPart.text content)) n := by
        by_cases hc : content = ""
        · rw [if_pos hc]; exact h2
        · rw [if_neg hc]; exact frameAbove_appendPart h2 _ _ haP
      have h4 := frameAbove_foldAppend _ haP atts h3
      exact frameAbove_write h4 _ _ (by rw [Store.alloc_snd]; exact h)
  · dsimp only
    exact frameAbove_refl σ n h

theorem outerFold_frameAbove (aOut n : Nat) (hn : n ≤ aOut) :
    ∀ (addrs : List Nat) (σ0 s : Store), FrameAbove σ0 s n →
      FrameAbove σ0 (addrs.foldl (fun s ma =>
        let q := processMsgHeap s ma
        match q.1.mem aOut with
        | HVal.outList l => q.1.write aOut (HVal.outList (l ++ [q.2]))
        | _ => q.1) s) n
  | [], _, s, h => h
  | ma :: rest, σ0, s, h => by
      rw [List.foldl_cons]
      apply outerFold_frameAbove aOut n hn rest
      have h1 : FrameAbove σ0 (processMsgHeap s ma).1 n :=
        frameAbove_trans h (processMsgHeap_frameAbove s ma h.1)
      dsimp only
      split
      · exact frameAbove_write h1 _ _ hn
      · exact h1

theorem processMessagesHeap_frame (σ : Store) (addrs : List Nat) (b : Nat)
    (hb : b < σ.next) :
    (processMessagesHeap σ addrs).1.mem b = σ.mem b := by
  unfold processMessagesHeap
  dsimp only
  have h0 : FrameAbove σ (σ.alloc (HVal.outList [])).1 σ.next :=
    frameAbove_alloc (frameAbove_refl σ σ.next le_rfl) _
  have hfold := outerFold_frameAbove (σ.alloc (HVal.outList [])).2 σ.next
    (by rw [Store.alloc_snd]) addrs σ (σ.alloc (HVal.outList [])).1 h0
  exact hfold.2 b hb

/-- C10: the message-processing step of `query_model` never mutates its
input: every store cell allocated before the call — the messages list and
every message and attachment object in it — holds the same value after
the call, because the transport payload is built from freshly allocated
objects; hence one messages list can be shared across all concurrent
invocations of a dispatch. -/
theorem query_model_no_input_mutation (σ : Store) (addrs : List Nat)
    (b : Nat) (hb : b < σ.next) :
    (processMessagesHeap σ addrs).1.mem b = σ.mem b :=
  processMessagesHeap_frame σ addrs b hb

theorem query_model_no_input_mutation_witness :
    (processMessagesHeap (Store.mk (fun _ => HVal.undef) 1) [0]).1.mem 0 =
      HVal.undef :=
  (query_model_no_input_mutation (Store.mk (fun _ => HVal.undef) 1) [0] 0
    (by decide)).trans rfl
